import Mathlib

/-!
A shallow embedding of the siren-nav step-reduction engine
(src/steps.ts, src/steps/build.ts, src/utils.ts) together with the
collaborator pieces the steps use.  External collaborators (the HTTP
transport, the urijs URL library) are passed in as explicit arguments:
a step that performs a fetch takes the fetched document or response as
a parameter, and URL resolution is an explicit function argument.
JavaScript objects used as string maps are modelled as association
lists with JS-object update semantics (an existing key keeps its
position, a fresh key is appended); JS string truthiness (undefined
and the empty string are falsy) is modelled explicitly.
-/

/-- A JS object used as a string-to-string map (headers, template
parameters): an association list where lookup takes the first binding. -/
abbrev Headers := List (String × String)

abbrev Params := List (String × String)

/-- Property read `o[k]`: the first binding of `k`, if any. -/
def getH (hs : Headers) (k : String) : Option String :=
  (hs.find? (fun p => p.1 == k)).map (fun p => p.2)

/-- JS object update (`o[k] = v`, or spread-with-override): an existing
key keeps its position and gets the new value, a fresh key is appended. -/
def setH (hs : Headers) (k v : String) : Headers :=
  if hs.any (fun p => p.1 == k) then
    hs.map (fun p => if p.1 == k then (k, v) else p)
  else
    hs ++ [(k, v)]

/-- JS `a || b` on optional strings: `a` unless it is falsy
(undefined or the empty string). -/
def jsOr (a b : Option String) : Option String :=
  match a with
  | some s => if s = "" then b else a
  | none => b

/-- The response shape of the HTTP transport collaborator:
status, headers, body (the body is opaque to the core). -/
structure RespData where
  status : Nat
  headers : Headers
  body : String
deriving Repr, DecidableEq

/-- Request configuration: an optional header mapping plus the other
transport options, which the core copies but never inspects. -/
structure Config where
  headers : Option Headers
  rest : List (String × String)
deriving Repr, DecidableEq

/-- Modelled from the spec: the NavState snapshot (src/state.ts is not
among the sources).  Per the spec it is an immutable value holding the
current URL, the request configuration and the optional last-fetched
response; the constructor also receives optional template parameters
for later expansion, which we store as a field. -/
structure NavState where
  cur : String
  params : Option Params
  config : Config
  respData : Option RespData
deriving Repr, DecidableEq

/-- The response cache: a lookup from absolute URL to previously
fetched response. -/
abbrev Cache := List (String × RespData)

/-- Modelled from the spec: `cache.getOr(url)` (src/cache.ts is not
among the sources) returns the previously observed response payload
for the URL, or nothing when the URL has not been fetched. -/
def cacheGetOr (c : Cache) (url : String) : Option RespData :=
  (c.find? (fun p => p.1 == url)).map (fun p => p.2)

/-- Modelled from the spec: `state.rebase(href)` (src/state.ts is not
among the sources) resolves a href against the state's base URL via
the external resolveAbsolute collaborator, which is passed in as the
function `resolve : href → base → absolute`. -/
def NavState.rebase (resolve : String → String → String) (s : NavState) (href : String) : String :=
  resolve href s.cur

/-- A top-level Siren link: relation set plus href (siren-types). -/
structure SLink where
  rel : List String
  href : String
deriving Repr, DecidableEq

/-- A Siren sub-entity (siren-types): either an embedded link
(relations plus a direct href) or an embedded representation carrying
its own links. -/
inductive SubEntity where
  | embLink (rel : List String) (href : String)
  | embRepr (rel : List String) (links : List SLink)
deriving Repr, DecidableEq

/-- A parsed Siren document; `entities` and `links` may be absent. -/
structure Siren where
  entities : Option (List SubEntity)
  links : Option (List SLink)
deriving Repr, DecidableEq

/-- Modelled from the spec: `getSelf(entity)` (src/utils.ts's getSelf
is not among the source parts) looks up the entity's own
self-relation link and returns its href when present. -/
def getSelf : SubEntity → Option String
  | SubEntity.embLink _ _ => none
  | SubEntity.embRepr _ links =>
      (links.find? (fun l => l.rel.contains ("self"))).map (fun l => l.href)

/-- The structured content of the errors the steps throw. -/
inductive NavError where
  | noMatch (rel : String)
  | ambiguous (rel : String) (candidates : List NavState)
  | missingLocation (headerKeys : List String)
  | relativeUrl (url : String)
  | stepError (msg : String)
deriving Repr, DecidableEq

/-- A step: current state and cache to a new state or a failure
(src/steps.ts `Step`, with promise rejection as `Except.error`). -/
abbrev Step := NavState → Cache → Except NavError NavState

/-- A multi-step: current state and cache to a list of successor
states or a failure (src/steps.ts `MultiStep`). -/
abbrev MultiStep := NavState → Cache → Except NavError (List NavState)

/-- src/steps.ts `reduce`: fold the steps left to right over the
running state; an empty step list returns the running state, and
awaiting a failed state propagates the failure. -/
def reduce (cur : Except NavError NavState) (steps : List Step) (cache : Cache) :
    Except NavError NavState :=
  match steps with
  | [] => cur
  | s :: rest =>
    match cur with
    | Except.error e => Except.error e
    | Except.ok state => reduce (s state cache) rest cache

/-- src/steps.ts `applySteps`: apply one multi-step to every state in
the working set, concatenating the successor lists in input order; a
failure for one state aborts the whole application. -/
def applySteps (step : MultiStep) (states : List NavState) (cache : Cache) :
    Except NavError (List NavState) :=
  match states with
  | [] => Except.ok []
  | s :: rest => do
    let results ← step s cache
    let acc ← applySteps step rest cache
    pure (results ++ acc)

/-- src/steps.ts `reduceEach`: fold the waves left to right over the
working set of states. -/
def reduceEach (cur : Except NavError (List NavState)) (steps : List MultiStep) (cache : Cache) :
    Except NavError (List NavState) :=
  match steps with
  | [] => cur
  | s :: rest =>
    match cur with
    | Except.error e => Except.error e
    | Except.ok states => reduceEach (applySteps s states cache) rest cache

/-- src/steps.ts `toMulti`: lift a single-output step to a multi-step
returning a one-element list. -/
def toMulti (step : Step) : MultiStep := fun cur cache => do
  let ns ← step cur cache
  pure [ns]

/-- src/steps.ts `accept`: copy the configuration; if an Accept header
is already present with value `cur`, rebuild the headers with Accept
set to `ctype ++ ", " ++ cur`, otherwise with Accept set to `ctype`;
the new state keeps the URL and reads its response from the cache. -/
def accept (ctype : String) (state : NavState) (cache : Cache) : NavState :=
  let hs := state.config.headers.getD []
  let newHeaders :=
    match getH hs ("Accept") with
    | some cur => setH hs ("Accept") (ctype ++ ", " ++ cur)
    | none => setH hs ("Accept") ctype
  ⟨state.cur, none, ⟨some newHeaders, state.config.rest⟩, cacheGetOr cache state.cur⟩

/-- src/steps.ts `header`: copy the configuration and its header
object, then bind `key` to `value`; the new state keeps the URL and
reads its response from the cache. -/
def header (key value : String) (state : NavState) (cache : Cache) : NavState :=
  let hs := state.config.headers.getD []
  ⟨state.cur, none, ⟨some (setH hs key value), state.config.rest⟩, cacheGetOr cache state.cur⟩

/-- src/steps.ts `contentType`. -/
def contentType (ctype : String) (state : NavState) (cache : Cache) : NavState :=
  header ("Content-Type") ctype state cache

/-- src/steps.ts `auth`. -/
def auth (scheme token : String) (state : NavState) (cache : Cache) : NavState :=
  header ("Authorization") (scheme ++ " " ++ token) state cache

/-- The candidate a single sub-entity contributes in src/steps.ts
`findPossible`: an entity whose relation set lacks the target relation
contributes nothing; one carrying a direct href contributes a state at
the rebased href; an embedded representation contributes a state at
its rebased self link when it has one, and nothing otherwise. -/
def entityCandidate (resolve : String → String → String) (rel : String) (state : NavState)
    (cache : Cache) (params : Option Params) : SubEntity → Option NavState
  | SubEntity.embLink rels href =>
    if rels.contains rel then
      let hrefAbs := state.rebase resolve href
      some ⟨hrefAbs, params, state.config, cacheGetOr cache hrefAbs⟩
    else none
  | SubEntity.embRepr rels links =>
    if rels.contains rel then
      match getSelf (SubEntity.embRepr rels links) with
      | some self =>
        let selfAbs := state.rebase resolve self
        some ⟨selfAbs, params, state.config, cacheGetOr cache selfAbs⟩
      | none => none
    else none

/-- The candidate a single top-level link contributes in src/steps.ts
`findPossible`. -/
def linkCandidate (resolve : String → String → String) (rel : String) (state : NavState)
    (cache : Cache) (params : Option Params) (l : SLink) : Option NavState :=
  if l.rel.contains rel then
    let hrefAbs := state.rebase resolve l.href
    some ⟨hrefAbs, params, state.config, cacheGetOr cache hrefAbs⟩
  else none

/-- src/steps.ts `findPossible`: one pass over the sub-entities in
document order pushing each entity's candidate, then one pass over the
top-level links pushing each link's candidate. -/
def findPossible (resolve : String → String → String) (rel : String) (siren : Siren)
    (state : NavState) (cache : Cache) (params : Option Params) : List NavState :=
  (siren.entities.getD []).filterMap (entityCandidate resolve rel state cache params)
    ++ (siren.links.getD []).filterMap (linkCandidate resolve rel state cache params)

/-- src/steps.ts `followEach`: the fetched document's full candidate
list (the document the fetch returned is passed in). -/
def followEach (resolve : String → String → String) (rel : String) (params : Option Params)
    (state : NavState) (cache : Cache) (siren : Siren) : List NavState :=
  findPossible resolve rel siren state cache params

/-- src/steps.ts `follow`: resolve the candidates for the relation in
the fetched document; fail on zero candidates, return the sole
candidate when there is exactly one, and on several candidates either
fail (no disambiguator) or return the disambiguator's choice over the
full list. -/
def follow (resolve : String → String → String) (rel : String) (params : Option Params)
    (which : Option (List NavState → NavState)) (state : NavState) (cache : Cache)
    (siren : Siren) : Except NavError NavState :=
  let possible := findPossible resolve rel siren state cache params
  if possible.length = 0 then
    Except.error (NavError.noMatch rel)
  else if 1 < possible.length then
    match which with
    | none => Except.error (NavError.ambiguous rel possible)
    | some w => Except.ok (w possible)
  else
    Except.ok (possible.headD state)

/-- src/steps.ts `followLocation`: the transport's response for the
current state is passed in; read the Location header under the
`Location` key, falling back to the `location` key when the former is
absent or empty (JS truthiness of `a || b`); a missing or empty
result fails with the list of header keys actually present, otherwise
the new state sits at the rebased Location value. -/
def followLocation (resolve : String → String → String) (state : NavState) (cache : Cache)
    (resp : RespData) : Except NavError NavState :=
  match jsOr (getH resp.headers ("Location")) (getH resp.headers ("location")) with
  | none => Except.error (NavError.missingLocation (resp.headers.map (fun p => p.1)))
  | some loc =>
    if loc = "" then
      Except.error (NavError.missingLocation (resp.headers.map (fun p => p.1)))
    else
      let locurl := state.rebase resolve loc
      Except.ok ⟨locurl, none, state.config, cacheGetOr cache locurl⟩

/-- src/utils.ts `normalizeUrl`: resolve `href` against `base` when a
non-empty base is given (JS truthiness of `base ?`), fail when the
result is still relative, and otherwise return it, template-expanded
when parameters are supplied.  The urijs collaborator operations are
passed in as `absoluteTo`, `isRelative` and `expand`. -/
def normalizeUrl (absoluteTo : String → String → String) (isRelative : String → Bool)
    (expand : String → Params → String) (href : String) (base : Option String)
    (parameters : Option Params) : Except NavError String :=
  let url :=
    match base with
    | some b => if b = "" then href else absoluteTo href b
    | none => href
  if isRelative url then
    Except.error (NavError.relativeUrl url)
  else
    match parameters with
    | some ps => Except.ok (expand url ps)
    | none => Except.ok url

/-- Modelled from the spec: `headerConfig` (src/config.ts is not among
the sources), the configuration transformer used by src/steps/build.ts.
Per the spec, `accept` accumulates an existing Accept header by joining
the new and the old value with ", " while `header` sets the key; both
build.ts wrappers route through headerConfig, so it accumulates for
the Accept key and overwrites for every other key. -/
def headerConfig (key value : String) (config : Config) : Config :=
  let hs := config.headers.getD []
  match getH hs key with
  | some old =>
    if key == "Accept" then ⟨some (setH hs key (value ++ ", " ++ old)), config.rest⟩
    else ⟨some (setH hs key value), config.rest⟩
  | none => ⟨some (setH hs key value), config.rest⟩

/-- src/steps/build.ts `header`: a new state at the same URL with the
transformed configuration and no response. -/
def buildHeader (key value : String) (state : NavState) : NavState :=
  ⟨state.cur, none, headerConfig key value state.config, none⟩

/-- src/steps/build.ts `accept`. -/
def buildAccept (ctype : String) (state : NavState) : NavState :=
  buildHeader ("Accept") ctype state

lemma getH_cons_pos (p : String × String) (tl : Headers) (k : String)
    (h : (p.1 == k) = true) : getH (p :: tl) k = some p.2 := by
  unfold getH
  rw [@List.find?_cons_of_pos _ (fun q => q.1 == k) p tl h]
  rfl

lemma getH_cons_neg (p : String × String) (tl : Headers) (k : String)
    (h : ¬ (p.1 == k) = true) : getH (p :: tl) k = getH tl k := by
  unfold getH
  rw [@List.find?_cons_of_neg _ (fun q => q.1 == k) p tl h]

lemma getH_map_set (hs : Headers) (k v : String) (h : hs.any (fun p => p.1 == k) = true) :
    getH (hs.map (fun p => if p.1 == k then (k, v) else p)) k = some v := by
  induction hs with
  | nil => simp at h
  | cons p tl ih =>
    rw [List.map_cons]
    by_cases hp : (p.1 == k) = true
    · rw [if_pos hp, getH_cons_pos _ _ _ (by simp)]
    · rw [if_neg hp, getH_cons_neg _ _ _ hp]
      refine ih ?_
      rw [List.any_cons] at h
      simpa [hp] using h

lemma getH_append_new (hs : Headers) (k v : String) (h : hs.any (fun p => p.1 == k) = false) :
    getH (hs ++ [(k, v)]) k = some v := by
  induction hs with
  | nil => rw [List.nil_append, getH_cons_pos _ _ _ (by simp)]
  | cons p tl ih =>
    rw [List.any_cons, Bool.or_eq_false_iff] at h
    rw [List.cons_append, getH_cons_neg _ _ _ (by simp [h.1])]
    exact ih h.2

lemma getH_setH_self (hs : Headers) (k v : String) : getH (setH hs k v) k = some v := by
  unfold setH
  by_cases h : hs.any (fun p => p.1 == k) = true
  · rw [if_pos h]
    exact getH_map_set hs k v h
  · rw [if_neg h]
    exact getH_append_new hs k v (Bool.not_eq_true _ ▸ h)

lemma getH_map_ne (hs : Headers) (k v k2 : String) (h : ¬ k2 = k) :
    getH (hs.map (fun p => if p.1 == k then (k, v) else p)) k2 = getH hs k2 := by
  induction hs with
  | nil => rfl
  | cons p tl ih =>
    rw [List.map_cons]
    by_cases hp : (p.1 == k) = true
    · have hpk : p.1 = k := by simpa using hp
      have h1 : ¬ (((k, v) : String × String).1 == k2) = true := by
        simp only [beq_iff_eq]
        exact fun e => h e.symm
      have h2 : ¬ (p.1 == k2) = true := by
        simp only [beq_iff_eq, hpk]
        exact fun e => h e.symm
      rw [if_pos hp, getH_cons_neg _ _ _ h1, getH_cons_neg _ _ _ h2]
      exact ih
    · rw [if_neg hp]
      by_cases hq : (p.1 == k2) = true
      · rw [getH_cons_pos _ _ _ hq, getH_cons_pos _ _ _ hq]
      · rw [getH_cons_neg _ _ _ hq, getH_cons_neg _ _ _ hq]
        exact ih

lemma getH_append_ne (hs : Headers) (k v k2 : String) (h : ¬ k2 = k) :
    getH (hs ++ [(k, v)]) k2 = getH hs k2 := by
  induction hs with
  | nil =>
    have h1 : ¬ (((k, v) : String × String).1 == k2) = true := by
      simp only [beq_iff_eq]
      exact fun e => h e.symm
    rw [List.nil_append, getH_cons_neg _ _ _ h1]
  | cons p tl ih =>
    by_cases hq : (p.1 == k2) = true
    · rw [List.cons_append, getH_cons_pos _ _ _ hq, getH_cons_pos _ _ _ hq]
    · rw [List.cons_append, getH_cons_neg _ _ _ hq, getH_cons_neg _ _ _ hq]
      exact ih

lemma getH_setH_ne (hs : Headers) (k v k2 : String) (h : ¬ k2 = k) :
    getH (setH hs k v) k2 = getH hs k2 := by
  unfold setH
  by_cases hany : hs.any (fun p => p.1 == k) = true
  · rw [if_pos hany]
    exact getH_map_ne hs k v k2 h
  · rw [if_neg hany]
    exact getH_append_ne hs k v k2 h

/-- C3: `accept(t)` accumulates: when the configuration already holds an
Accept header with value `v`, the result's Accept header is
`t ++ ", " ++ v` (both for the src/steps.ts step and the
src/steps/build.ts wrapper over headerConfig), and applying
`accept("application/json")` then `accept("application/xml")` to a
state with no prior Accept header yields
`"application/xml, application/json"`. -/
theorem accept_accumulates (ctype v : String) (state : NavState) (cache : Cache) :
    (getH (state.config.headers.getD []) ("Accept") = some v →
      getH ((accept ctype state cache).config.headers.getD []) ("Accept")
          = some (ctype ++ ", " ++ v)
        ∧ getH ((buildAccept ctype state).config.headers.getD []) ("Accept")
          = some (ctype ++ ", " ++ v)) ∧
    getH ((accept ("application/xml")
        (accept ("application/json")
          ⟨"http://ex", none, ⟨none, []⟩, none⟩ []) []).config.headers.getD []) ("Accept")
      = some ("application/xml, application/json") := by
  constructor
  · intro h
    constructor
    · simp only [accept, h]
      exact getH_setH_self _ _ _
    · simp only [buildAccept, buildHeader, headerConfig, h]
      simp only [beq_self_eq_true, if_true]
      exact getH_setH_self _ _ _
  · rfl

theorem accept_accumulates_witness :
    getH ((accept ("text/plain")
        ⟨"http://ex", none, ⟨some [("Accept", "text/html")], []⟩, none⟩ []).config.headers.getD [])
      ("Accept") = some ("text/plain, text/html") :=
  ((accept_accumulates ("text/plain") ("text/html")
      ⟨"http://ex", none, ⟨some [("Accept", "text/html")], []⟩, none⟩ []).1 (by rfl)).1

/-- C4 counterexample: `header` does not preserve the input state's
last-fetched response.  At a state carrying a response and an empty
cache, the state produced by `header` carries no response. -/
theorem header_response_cex :
    (header ("X-Key") ("1")
        ⟨"http://a", none, ⟨some [], []⟩, some ⟨200, [], "b"⟩⟩ []).respData
      ≠ (⟨"http://a", none, ⟨some [], []⟩, some ⟨200, [], "b"⟩⟩ : NavState).respData := by
  decide

/-- C4 (amended): `header(k, v)` binds `k` to `v`, preserves every
other header entry, the other configuration fields and the current
URL, and the result's response is the cache's entry for the current
URL (not necessarily the input state's response); applying
`header(k, v1)` then `header(k, v2)` leaves `v2` bound to `k`.  The
input state itself is a value and is never mutated. -/
theorem header_frame (k v : String) (state : NavState) (cache : Cache) :
    getH ((header k v state cache).config.headers.getD []) k = some v ∧
    (∀ k2, k2 ≠ k →
      getH ((header k v state cache).config.headers.getD []) k2
        = getH (state.config.headers.getD []) k2) ∧
    (header k v state cache).config.rest = state.config.rest ∧
    (header k v state cache).cur = state.cur ∧
    (header k v state cache).respData = cacheGetOr cache state.cur ∧
    (∀ v2, getH ((header k v2 (header k v state cache) cache).config.headers.getD []) k
      = some v2) := by
  refine ⟨?_, ?_, rfl, rfl, rfl, ?_⟩
  · simp only [header]
    exact getH_setH_self _ _ _
  · intro k2 hk
    simp only [header]
    exact getH_setH_ne _ _ _ _ hk
  · intro v2
    simp only [header]
    exact getH_setH_self _ _ _

theorem header_frame_witness :
    getH ((header ("X-A") ("2") (header ("X-A") ("1")
        ⟨"http://a", none, ⟨some [("Host", "h")], []⟩, none⟩ []) []).config.headers.getD [])
      ("X-A") = some ("2") ∧
    getH ((header ("X-A") ("1")
        ⟨"http://a", none, ⟨some [("Host", "h")], []⟩, none⟩ []).config.headers.getD [])
      ("Host") = some ("h") :=
  ⟨(header_frame ("X-A") ("2") (header ("X-A") ("1")
      ⟨"http://a", none, ⟨some [("Host", "h")], []⟩, none⟩ []) []).1,
   (header_frame ("X-A") ("1")
      ⟨"http://a", none, ⟨some [("Host", "h")], []⟩, none⟩ []).2.1 ("Host") (by decide)⟩

/-- C5: `reduce` applies the steps strictly left to right (the head
step receives the current state and the recursion continues on the
state it produces), returns the initial state unchanged on the empty
step list, and a failed state short-circuits: no later step is applied
and the failure propagates unchanged. -/
theorem reduce_sequential (cache : Cache) (cur : Except NavError NavState)
    (st : NavState) (s : Step) (rest : List Step) (e : NavError) (steps : List Step) :
    reduce cur [] cache = cur ∧
    reduce (Except.ok st) (s :: rest) cache = reduce (s st cache) rest cache ∧
    reduce (Except.error e) steps cache = Except.error e := by
  refine ⟨rfl, rfl, ?_⟩
  cases steps with
  | nil => rfl
  | cons s2 rest2 => rfl

lemma applySteps_concat (step : MultiStep) (cache : Cache) (outs : NavState → List NavState) :
    ∀ states : List NavState, (∀ s ∈ states, step s cache = Except.ok (outs s)) →
      applySteps step states cache = Except.ok (states.flatMap outs) := by
  intro states
  induction states with
  | nil => intro _; rfl
  | cons s rest ih =>
    intro h
    have hs : step s cache = Except.ok (outs s) := h s (List.mem_cons_self s rest)
    have hrest : applySteps step rest cache = Except.ok (rest.flatMap outs) :=
      ih (fun x hx => h x (List.mem_cons_of_mem s hx))
    simp only [applySteps, hs, hrest, bind, Except.bind, List.flatMap_cons, pure, Except.pure]

/-- C6: in one wave of `reduceEach`, the successor set is the
concatenation, in input order, of each input state's successor list;
when the wave step yields exactly one successor `f s` per input state
`s`, the wave over K states yields the K states `states.map f`, in the
inputs' relative order. -/
theorem reduceEach_wave_concat (cache : Cache) (step : MultiStep)
    (states : List NavState) (outs : NavState → List NavState) (f : NavState → NavState) :
    ((∀ s ∈ states, step s cache = Except.ok (outs s)) →
      reduceEach (Except.ok states) [step] cache = Except.ok (states.flatMap outs)) ∧
    ((∀ s ∈ states, step s cache = Except.ok [f s]) →
      reduceEach (Except.ok states) [step] cache = Except.ok (states.map f)
        ∧ (states.map f).length = states.length) := by
  constructor
  · intro h
    show reduceEach (applySteps step states cache) [] cache = Except.ok (states.flatMap outs)
    rw [applySteps_concat step cache outs states h]
    rfl
  · intro h
    refine ⟨?_, List.length_map states f⟩
    show reduceEach (applySteps step states cache) [] cache = Except.ok (states.map f)
    rw [applySteps_concat step cache (fun s => [f s]) states h]
    simp only [reduceEach]
    congr 1
    have hflat : ∀ l : List NavState, (l.flatMap fun s => [f s]) = l.map f := by
      intro l
      induction l with
      | nil => rfl
      | cons a tl ih2 =>
        simp only [List.flatMap_cons, List.map_cons, List.singleton_append, ih2]
    exact hflat states

lemma follow_cases_eq (resolve : String → String → String) (rel : String) (params : Option Params)
    (which : Option (List NavState → NavState)) (state : NavState) (cache : Cache)
    (siren : Siren) :
    follow resolve rel params which state cache siren =
      match findPossible resolve rel siren state cache params, which with
      | [], _ => Except.error (NavError.noMatch rel)
      | [p], _ => Except.ok p
      | ps, none => Except.error (NavError.ambiguous rel ps)
      | ps, some w => Except.ok (w ps) := by
  unfold follow
  cases hfp : findPossible resolve rel siren state cache params with
  | nil => simp
  | cons p rest =>
    cases rest with
    | nil => simp
    | cons q rest2 =>
      simp only [List.length_cons]
      rw [if_neg (by omega), if_pos (by omega)]
      cases which with
      | none => rfl
      | some w => rfl

/-- C1: `follow` proceeds by case on the number of candidates the link
resolver produces: zero candidates fail with an error naming the
relation; exactly one candidate is returned; several candidates with
no disambiguator fail with an error carrying the full candidate list;
several candidates with a disambiguator return the disambiguator's
choice over the full candidate list. -/
theorem follow_case_analysis (resolve : String → String → String) (rel : String)
    (params : Option Params) (which : Option (List NavState → NavState)) (state : NavState)
    (cache : Cache) (siren : Siren) :
    (findPossible resolve rel siren state cache params = [] →
      follow resolve rel params which state cache siren
        = Except.error (NavError.noMatch rel)) ∧
    (∀ p, findPossible resolve rel siren state cache params = [p] →
      follow resolve rel params which state cache siren = Except.ok p) ∧
    (1 < (findPossible resolve rel siren state cache params).length → which = none →
      follow resolve rel params which state cache siren
        = Except.error (NavError.ambiguous rel
            (findPossible resolve rel siren state cache params))) ∧
    (∀ w, 1 < (findPossible resolve rel siren state cache params).length → which = some w →
      follow resolve rel params which state cache siren
        = Except.ok (w (findPossible resolve rel siren state cache params))) := by
  refine ⟨?_, ?_, ?_, ?_⟩
  · intro h
    rw [follow_cases_eq, h]
    cases which <;> rfl
  · intro p h
    rw [follow_cases_eq, h]
    cases which <;> rfl
  · intro hlen hw
    subst hw
    rw [follow_cases_eq]
    cases hfp : findPossible resolve rel siren state cache params with
    | nil =>
      rw [hfp] at hlen
      simp at hlen
    | cons p rest =>
      cases rest with
      | nil =>
        rw [hfp] at hlen
        simp at hlen
      | cons q rest2 => rfl
  · intro w hlen hw
    subst hw
    rw [follow_cases_eq]
    cases hfp : findPossible resolve rel siren state cache params with
    | nil =>
      rw [hfp] at hlen
      simp at hlen
    | cons p rest =>
      cases rest with
      | nil =>
        rw [hfp] at hlen
        simp at hlen
      | cons q rest2 => rfl

theorem follow_case_analysis_witness :
    follow (fun h _ => h) ("r") none none
        ⟨"http://base", none, ⟨none, []⟩, none⟩ [] ⟨none, none⟩
      = Except.error (NavError.noMatch ("r")) ∧
    follow (fun h _ => h) ("r") none none ⟨"http://base", none, ⟨none, []⟩, none⟩ []
        ⟨none, some [⟨["r"], "http://x"⟩]⟩
      = Except.ok ⟨"http://x", none, ⟨none, []⟩, none⟩ ∧
    follow (fun h _ => h) ("r") none none ⟨"http://base", none, ⟨none, []⟩, none⟩ []
        ⟨none, some [⟨["r"], "http://x"⟩, ⟨["r"], "http://y"⟩]⟩
      = Except.error (NavError.ambiguous ("r")
          [⟨"http://x", none, ⟨none, []⟩, none⟩, ⟨"http://y", none, ⟨none, []⟩, none⟩]) ∧
    follow (fun h _ => h) ("r") none
        (some (fun l => l.headD ⟨"http://z", none, ⟨none, []⟩, none⟩))
        ⟨"http://base", none, ⟨none, []⟩, none⟩ []
        ⟨none, some [⟨["r"], "http://x"⟩, ⟨["r"], "http://y"⟩]⟩
      = Except.ok ⟨"http://x", none, ⟨none, []⟩, none⟩ :=
  ⟨(follow_case_analysis (fun h _ => h) ("r") none none
      ⟨"http://base", none, ⟨none, []⟩, none⟩ [] ⟨none, none⟩).1 (by rfl),
   (follow_case_analysis (fun h _ => h) ("r") none none
      ⟨"http://base", none, ⟨none, []⟩, none⟩ [] ⟨none, some [⟨["r"], "http://x"⟩]⟩).2.1
      ⟨"http://x", none, ⟨none, []⟩, none⟩ (by rfl),
   (follow_case_analysis (fun h _ => h) ("r") none none
      ⟨"http://base", none, ⟨none, []⟩, none⟩ []
      ⟨none, some [⟨["r"], "http://x"⟩, ⟨["r"], "http://y"⟩]⟩).2.2.1 (by decide) rfl,
   (follow_case_analysis (fun h _ => h) ("r") none
      (some (fun l => l.headD ⟨"http://z", none, ⟨none, []⟩, none⟩))
      ⟨"http://base", none, ⟨none, []⟩, none⟩ []
      ⟨none, some [⟨["r"], "http://x"⟩, ⟨["r"], "http://y"⟩]⟩).2.2.2
      (fun l => l.headD ⟨"http://z", none, ⟨none, []⟩, none⟩) (by decide) rfl⟩

/-- C10: the supplied disambiguator matters only when the candidate
list has more than one element: with zero candidates `follow` fails
with the no-match error for every disambiguator, with exactly one
candidate it returns that candidate for every disambiguator, and only
with several candidates is the result the disambiguator's choice. -/
theorem follow_disambiguator_usage (resolve : String → String → String) (rel : String)
    (params : Option Params) (state : NavState) (cache : Cache) (siren : Siren) :
    (∀ w, findPossible resolve rel siren state cache params = [] →
      follow resolve rel params (some w) state cache siren
        = Except.error (NavError.noMatch rel)) ∧
    (∀ w p, findPossible resolve rel siren state cache params = [p] →
      follow resolve rel params (some w) state cache siren = Except.ok p) ∧
    (∀ w, 1 < (findPossible resolve rel siren state cache params).length →
      follow resolve rel params (some w) state cache siren
        = Except.ok (w (findPossible resolve rel siren state cache params))) := by
  refine ⟨?_, ?_, ?_⟩
  · intro w h
    rw [follow_cases_eq, h]
  · intro w p h
    rw [follow_cases_eq, h]
  · intro w hlen
    rw [follow_cases_eq]
    cases hfp : findPossible resolve rel siren state cache params with
    | nil =>
      rw [hfp] at hlen
      simp at hlen
    | cons p rest =>
      cases rest with
      | nil =>
        rw [hfp] at hlen
        simp at hlen
      | cons q rest2 => rfl

theorem follow_disambiguator_usage_witness :
    follow (fun h _ => h) ("r") none (some (fun _ => ⟨"http://dummy", none, ⟨none, []⟩, none⟩))
        ⟨"http://base", none, ⟨none, []⟩, none⟩ [] ⟨none, none⟩
      = Except.error (NavError.noMatch ("r")) ∧
    follow (fun h _ => h) ("r") none (some (fun _ => ⟨"http://dummy", none, ⟨none, []⟩, none⟩))
        ⟨"http://base", none, ⟨none, []⟩, none⟩ [] ⟨none, some [⟨["r"], "http://x"⟩]⟩
      = Except.ok ⟨"http://x", none, ⟨none, []⟩, none⟩ ∧
    follow (fun h _ => h) ("r") none (some (fun _ => ⟨"http://dummy", none, ⟨none, []⟩, none⟩))
        ⟨"http://base", none, ⟨none, []⟩, none⟩ []
        ⟨none, some [⟨["r"], "http://x"⟩, ⟨["r"], "http://y"⟩]⟩
      = Except.ok ⟨"http://dummy", none, ⟨none, []⟩, none⟩ :=
  ⟨(follow_disambiguator_usage (fun h _ => h) ("r") none
      ⟨"http://base", none, ⟨none, []⟩, none⟩ [] ⟨none, none⟩).1
      (fun _ => ⟨"http://dummy", none, ⟨none, []⟩, none⟩) (by rfl),
   (follow_disambiguator_usage (fun h _ => h) ("r") none
      ⟨"http://base", none, ⟨none, []⟩, none⟩ [] ⟨none, some [⟨["r"], "http://x"⟩]⟩).2.1
      (fun _ => ⟨"http://dummy", none, ⟨none, []⟩, none⟩)
      ⟨"http://x", none, ⟨none, []⟩, none⟩ (by rfl),
   (follow_disambiguator_usage (fun h _ => h) ("r") none
      ⟨"http://base", none, ⟨none, []⟩, none⟩ []
      ⟨none, some [⟨["r"], "http://x"⟩, ⟨["r"], "http://y"⟩]⟩).2.2
      (fun _ => ⟨"http://dummy", none, ⟨none, []⟩, none⟩) (by decide)⟩

/-- C2 counterexample: the resolver walks the sub-entities in a single
pass, so a representation match can precede a link match.  In a
document whose first sub-entity is an embedded representation with a
matching self link and whose second is a matching embedded link, the
representation's candidate comes first, although the claimed phase
order puts every sub-entity link match before every representation
match. -/
theorem findPossible_phase_order_cex :
    findPossible (fun h _ => h) ("r")
        ⟨some [SubEntity.embRepr ["r"] [⟨["self"], "http://a"⟩],
               SubEntity.embLink ["r"] ("http://b")], none⟩
        ⟨"http://base", none, ⟨none, []⟩, none⟩ [] none
      = [⟨"http://a", none, ⟨none, []⟩, none⟩, ⟨"http://b", none, ⟨none, []⟩, none⟩] ∧
    (⟨"http://a", none, ⟨none, []⟩, none⟩ : NavState)
      ≠ ⟨"http://b", none, ⟨none, []⟩, none⟩ := by
  constructor
  · rfl
  · decide

/-- C2 (amended): the candidate list is the sub-entity candidates in
document order — link matches and representation matches interleaved
as the entities appear — followed by the top-level link candidates in
document order: splitting the document at any point of the entity
list, the link list, or between the two splits the candidate list
accordingly. -/
theorem findPossible_order (resolve : String → String → String) (rel : String)
    (state : NavState) (cache : Cache) (params : Option Params)
    (es es2 : List SubEntity) (ls ls2 : List SLink) :
    findPossible resolve rel ⟨some es, some ls⟩ state cache params
      = findPossible resolve rel ⟨some es, none⟩ state cache params
        ++ findPossible resolve rel ⟨none, some ls⟩ state cache params ∧
    findPossible resolve rel ⟨some (es ++ es2), none⟩ state cache params
      = findPossible resolve rel ⟨some es, none⟩ state cache params
        ++ findPossible resolve rel ⟨some es2, none⟩ state cache params ∧
    findPossible resolve rel ⟨none, some (ls ++ ls2)⟩ state cache params
      = findPossible resolve rel ⟨none, some ls⟩ state cache params
        ++ findPossible resolve rel ⟨none, some ls2⟩ state cache params := by
  refine ⟨?_, ?_, ?_⟩ <;> simp [findPossible, List.filterMap_append]

/-- C8: a sub-entity that matches the relation but is an embedded
representation without a self-relation link contributes no candidate
and no error: deleting it from the document leaves the candidate list
unchanged. -/
theorem findPossible_skips_selfless_repr (resolve : String → String → String) (rel : String)
    (state : NavState) (cache : Cache) (params : Option Params)
    (es1 es2 : List SubEntity) (ls : List SLink) (rels : List String) (links : List SLink) :
    rels.contains rel = true →
    getSelf (SubEntity.embRepr rels links) = none →
    findPossible resolve rel ⟨some (es1 ++ SubEntity.embRepr rels links :: es2), some ls⟩
        state cache params
      = findPossible resolve rel ⟨some (es1 ++ es2), some ls⟩ state cache params := by
  intro _hmatch hself
  have hcand : entityCandidate resolve rel state cache params (SubEntity.embRepr rels links)
      = none := by
    simp only [entityCandidate, hself, ite_self]
  simp [findPossible, List.filterMap_append, List.filterMap_cons, hcand]

theorem findPossible_skips_selfless_repr_witness :
    findPossible (fun h _ => h) ("r")
        ⟨some [SubEntity.embLink ["r"] ("http://a"), SubEntity.embRepr ["r"] []],
         some [⟨["r"], "http://c"⟩]⟩
        ⟨"http://base", none, ⟨none, []⟩, none⟩ [] none
      = findPossible (fun h _ => h) ("r")
        ⟨some [SubEntity.embLink ["r"] ("http://a")], some [⟨["r"], "http://c"⟩]⟩
        ⟨"http://base", none, ⟨none, []⟩, none⟩ [] none :=
  findPossible_skips_selfless_repr (fun h _ => h) ("r")
    ⟨"http://base", none, ⟨none, []⟩, none⟩ [] none
    [SubEntity.embLink ["r"] ("http://a")] [] [⟨["r"], "http://c"⟩] ["r"] []
    (by decide) (by rfl)

/-- C7 counterexample: a response whose headers carry the `Location`
key with an empty value does contain a Location entry, yet
`followLocation` fails with the missing-header error (JS truthiness
treats the empty string as absent). -/
theorem followLocation_empty_cex :
    getH [(("Location" : String), ("" : String))] ("Location") = some ("") ∧
    followLocation (fun h _ => h) ⟨"http://base", none, ⟨none, []⟩, none⟩ []
        ⟨200, [("Location", "")], "b"⟩
      = Except.error (NavError.missingLocation ["Location"]) :=
  ⟨rfl, rfl⟩

/-- C7 (amended): when the `Location` key — or, when that is absent or
empty, the `location` key — yields a non-empty value, `followLocation`
returns a new state at that value resolved against the state's base;
when both keys are absent or yield only empty values it fails with an
error naming the header keys actually present. -/
theorem followLocation_spec (resolve : String → String → String) (state : NavState)
    (cache : Cache) (resp : RespData) :
    (∀ loc, jsOr (getH resp.headers ("Location")) (getH resp.headers ("location")) = some loc →
      loc ≠ "" →
      followLocation resolve state cache resp
        = Except.ok ⟨resolve loc state.cur, none, state.config,
            cacheGetOr cache (resolve loc state.cur)⟩) ∧
    ((jsOr (getH resp.headers ("Location")) (getH resp.headers ("location")) = none ∨
      jsOr (getH resp.headers ("Location")) (getH resp.headers ("location")) = some "") →
      followLocation resolve state cache resp
        = Except.error (NavError.missingLocation (resp.headers.map (fun p => p.1)))) := by
  constructor
  · intro loc hloc hne
    simp only [followLocation, hloc]
    rw [if_neg hne]
    rfl
  · intro h
    cases h with
    | inl h0 => simp only [followLocation, h0]
    | inr h0 =>
      simp only [followLocation, h0]
      simp

theorem followLocation_spec_witness :
    followLocation (fun h _ => h) ⟨"http://base", none, ⟨none, []⟩, none⟩ []
        ⟨200, [("location", "http://next")], "b"⟩
      = Except.ok ⟨"http://next", none, ⟨none, []⟩, none⟩ ∧
    followLocation (fun h _ => h) ⟨"http://base", none, ⟨none, []⟩, none⟩ []
        ⟨200, [("X-Only", "1")], "b"⟩
      = Except.error (NavError.missingLocation ["X-Only"]) :=
  ⟨(followLocation_spec (fun h _ => h) ⟨"http://base", none, ⟨none, []⟩, none⟩ []
      ⟨200, [("location", "http://next")], "b"⟩).1 ("http://next") (by rfl) (by decide),
   (followLocation_spec (fun h _ => h) ⟨"http://base", none, ⟨none, []⟩, none⟩ []
      ⟨200, [("X-Only", "1")], "b"⟩).2 (Or.inl (by rfl))⟩

/-- C9: `normalizeUrl` fails — with an error carrying the resolved
URL — exactly when the URL obtained by resolving `href` against
`base` is still relative; when the result is absolute it is returned,
template-expanded when parameters are supplied. -/
theorem normalizeUrl_relative_iff (absoluteTo : String → String → String)
    (isRelative : String → Bool) (expand : String → Params → String)
    (href : String) (base : Option String) (parameters : Option Params) (url : String)
    (hurl : url = match base with
      | some b => if b = "" then href else absoluteTo href b
      | none => href) :
    (normalizeUrl absoluteTo isRelative expand href base parameters
        = Except.error (NavError.relativeUrl url) ↔ isRelative url = true) ∧
    (isRelative url = false →
      normalizeUrl absoluteTo isRelative expand href base parameters
        = Except.ok (match parameters with
            | some ps => expand url ps
            | none => url)) := by
  have hdef : normalizeUrl absoluteTo isRelative expand href base parameters
      = if isRelative url then Except.error (NavError.relativeUrl url)
        else match parameters with
          | some ps => Except.ok (expand url ps)
          | none => Except.ok url := by
    rw [hurl]
    rfl
  rw [hdef]
  cases hrel : isRelative url with
  | true =>
    constructor
    · simp [hrel]
    · intro hfalse
      exact Bool.noConfusion hfalse
  | false =>
    constructor
    · rw [if_neg (by simp [hrel])]
      constructor
      · intro h
        exfalso
        cases parameters with
        | none => exact Except.noConfusion h
        | some ps => exact Except.noConfusion h
      · intro h
        exact Bool.noConfusion h
    · intro _
      rw [if_neg (by simp [hrel])]
      cases parameters with
      | none => rfl
      | some ps => rfl

theorem normalizeUrl_relative_iff_witness :
    normalizeUrl (fun h b => b ++ h) (fun u => u == "/p") (fun u _ => u)
        ("/p") (some ("http://ex")) none
      = Except.ok ("http://ex/p") ∧
    normalizeUrl (fun h b => b ++ h) (fun u => u == "/p") (fun u _ => u)
        ("/p") none none
      = Except.error (NavError.relativeUrl ("/p")) :=
  ⟨(normalizeUrl_relative_iff (fun h b => b ++ h) (fun u => u == "/p") (fun u _ => u)
      ("/p") (some ("http://ex")) none ("http://ex/p") (by decide)).2 (by decide),
   ((normalizeUrl_relative_iff (fun h b => b ++ h) (fun u => u == "/p") (fun u _ => u)
      ("/p") none none ("/p") (by rfl)).1).mpr (by decide)⟩

theorem reduceEach_wave_concat_witness :
    reduceEach (Except.ok [⟨"http://a", none, ⟨none, []⟩, none⟩,
        ⟨"http://b", none, ⟨none, []⟩, none⟩])
      [fun s _ => Except.ok [s]] []
      = Except.ok [⟨"http://a", none, ⟨none, []⟩, none⟩,
        ⟨"http://b", none, ⟨none, []⟩, none⟩] :=
  ((reduceEach_wave_concat [] (fun s _ => Except.ok [s])
      [⟨"http://a", none, ⟨none, []⟩, none⟩, ⟨"http://b", none, ⟨none, []⟩, none⟩]
      (fun s => [s]) (fun s => s)).2 (fun _ _ => rfl)).1
